import Mathlib

set_option maxRecDepth 8192

/-!
Shallow embedding of the `uvc-power` repository's core simulator
(`src/rig.py`) and of the power estimator
(`rig_sensitivity_analysis.py`).

Modelling conventions:
* Python `int` values (days, durations, sizes) are `ℤ`; Python `float`
  values (rates, probabilities) are `ℚ`; Python `//` is `Int.fdiv`
  (floor division) and list indexing uses `List.getD`.
* The global random generator (`random.random()`) is modelled by an
  explicit oracle `rng : ℤ → ℕ → ℚ` supplying the draw consumed by
  `expose` for the worker at a given position on a given day; all
  theorems quantify over the oracle.
* Python dicts keyed by the closed enums `Shift` are total functions.
-/

/-- `Shift` enum from `rig.py`: a worker is either on the rig or on the
mainland. -/
inductive Shift where
  | ON : Shift
  | OFF : Shift
  deriving DecidableEq, Repr

/-- `InfectionStatus` enum from `rig.py`: SEIR status of a worker. -/
inductive InfectionStatus where
  | S : InfectionStatus
  | E : InfectionStatus
  | I : InfectionStatus
  | R : InfectionStatus
  deriving DecidableEq, Repr

/-- `Worker` dataclass from `rig.py`. -/
structure Worker where
  shift : Shift
  shift_changed_on : ℤ
  infection_status : InfectionStatus
  infection_status_changed_on : ℤ
  deriving DecidableEq, Repr

instance : Inhabited Worker := ⟨⟨Shift.ON, 0, InfectionStatus.S, 0⟩⟩

/-- `Crew = list[Worker]`. -/
abbrev Crew := List Worker

/-- `ScheduleEntry` dataclass from `rig.py`. -/
structure ScheduleEntry where
  length : ℤ
  next_shift : Shift
  deriving DecidableEq, Repr

/-- `Schedule = dict[Shift, ScheduleEntry]`, total since `Shift` is a
closed enum and the source always populates both keys. -/
abbrev Schedule := Shift → ScheduleEntry

/-- `change_shift(worker, day, sched)` from `rig.py`. -/
def change_shift (worker : Worker) (day : ℤ) (sched : Schedule) : Worker :=
  let sched_entry := sched worker.shift
  if day - worker.shift_changed_on ≥ sched_entry.length then
    Worker.mk sched_entry.next_shift day
      worker.infection_status worker.infection_status_changed_on
  else
    worker

/-- `RateMap = dict[Shift, float]`. -/
abbrev RateMap := Shift → ℚ

/-- `expose(w, day, infection_rates)` from `rig.py`; the Bernoulli draw
`random()` is passed in explicitly as `r`. -/
def expose (w : Worker) (day : ℤ) (infection_rates : RateMap) (r : ℚ) : Worker :=
  if w.infection_status = InfectionStatus.S ∧ r ≤ infection_rates w.shift then
    Worker.mk w.shift w.shift_changed_on InfectionStatus.E day
  else
    w

/-- `update_infections(w, day, t_inf, t_rec)` from `rig.py`. -/
def update_infections (w : Worker) (day : ℤ) (t_inf t_rec : ℤ) : Worker :=
  if w.infection_status = InfectionStatus.E ∧
      day - w.infection_status_changed_on ≥ t_inf then
    Worker.mk w.shift w.shift_changed_on InfectionStatus.I day
  else if w.infection_status = InfectionStatus.I ∧
      day - w.infection_status_changed_on ≥ t_rec - t_inf then
    Worker.mk w.shift w.shift_changed_on InfectionStatus.R day
  else
    w

/-- `count_shift(crew, shift)` from `rig.py`. -/
def count_shift (crew : Crew) (shift : Shift) : ℕ :=
  crew.countP (fun w => decide (w.shift = shift))

/-- `count_status(crew, status, shift)` from `rig.py`; `shift = none`
models the Python default `shift=None` (count across both shifts). -/
def count_status (crew : Crew) (status : InfectionStatus)
    (shift : Option Shift) : ℕ :=
  crew.countP (fun w =>
    (match shift with
      | none => true
      | some s => decide (w.shift = s)) && decide (w.infection_status = status))

/-- Python `range(start, stop, step)` for a positive `step` (the only
case the source uses), as a list of integers. -/
def pyRange (start stop step : ℤ) : List ℤ :=
  (List.range ((stop - start + step - 1).fdiv step).toNat).map
    (fun (i : ℕ) => start + step * (i : ℤ))

/-- Python `islice(cycle(l), n)`: the first `n` elements of the endless
repetition of `l` (empty when `l` is empty, as `cycle` of an empty
iterable is immediately exhausted). -/
def cycleTake {α : Type} (l : List α) (n : ℕ) : List α :=
  match l with
  | [] => []
  | a :: tl =>
      (List.range n).map (fun i => (a :: tl).getD (i % (a :: tl).length) a)

/-- `_generate_shift(shift, crew_size, sched, t_change)` from `rig.py`. -/
def generate_shift (shift : Shift) (crew_size : ℤ) (sched : Schedule)
    (t_change : ℤ) : List Worker :=
  let num_shift := (crew_size * (sched shift).length).fdiv (sched Shift.ON).length
  cycleTake
    ((pyRange 0 (sched shift).length t_change).map
      (fun d => Worker.mk shift d InfectionStatus.S 0))
    num_shift.toNat

/-- `_initialize_crew(crew_size, sched, t_change)` from `rig.py`;
Python iterates `Shift` in declaration order (ON, then OFF). -/
def initialize_crew (crew_size : ℤ) (sched : Schedule) (t_change : ℤ) : Crew :=
  generate_shift Shift.ON crew_size sched t_change ++
    generate_shift Shift.OFF crew_size sched t_change

/-- `SimulationResult = list[Crew]`. -/
abbrev SimulationResult := List Crew

/-- The schedule dict built at the top of `run_simulation`. -/
def schedule (days_on days_off : ℤ) : Schedule :=
  fun s =>
    match s with
    | Shift.ON => ScheduleEntry.mk days_on Shift.OFF
    | Shift.OFF => ScheduleEntry.mk days_off Shift.ON

/-- The closure `_infection_rates(c, day)` from `run_simulation`.
Division `ℚ`-division; the source would raise `ZeroDivisionError` when
no worker is on shift ON, which the model maps to rate `0`. -/
def infection_rates (mainland_infection_rate : ℤ → ℚ) (r0 : ℚ)
    (t_inf t_rec : ℤ) (c : Crew) (day : ℤ) : RateMap :=
  let rate_off := mainland_infection_rate day
  let prop_inf_on : ℚ :=
    (count_status c InfectionStatus.I (some Shift.ON) : ℚ) /
      (count_shift c Shift.ON : ℚ)
  let rate_on := r0 * prop_inf_on / ((t_rec - t_inf : ℤ) : ℚ)
  fun s =>
    match s with
    | Shift.OFF => rate_off
    | Shift.ON => rate_on

/-- The comprehension `[expose(w, day, rates) for w in updated]`, with
the oracle draw for the worker at overall position `j + position`. -/
def exposeAll (day : ℤ) (rates : RateMap) (rng : ℤ → ℕ → ℚ) :
    ℕ → Crew → Crew
  | _, [] => []
  | j, w :: ws => expose w day rates (rng day j) :: exposeAll day rates rng (j + 1) ws

/-- The closure `_step(c, day)` from `run_simulation`: the generator of
shift changes is consumed by the infection-update comprehension, then
rates are computed from the updated crew, then every worker is exposed. -/
def step (sched : Schedule) (mainland_infection_rate : ℤ → ℚ) (r0 : ℚ)
    (t_inf t_rec : ℤ) (rng : ℤ → ℕ → ℚ) (c : Crew) (day : ℤ) : Crew :=
  let updated := c.map (fun w => update_infections (change_shift w day sched) day t_inf t_rec)
  let rates := infection_rates mainland_infection_rate r0 t_inf t_rec updated day
  exposeAll day rates rng 0 updated

/-- `run_simulation(...)` from `rig.py`: `accumulate(days, _step,
initial=crew)` is `List.scanl`. -/
def run_simulation (n_days crew_size : ℤ) (mainland_infection_rate : ℤ → ℚ)
    (r0 : ℚ) (t_inf t_rec days_on days_off t_change : ℤ)
    (rng : ℤ → ℕ → ℚ) : SimulationResult :=
  let sched := schedule days_on days_off
  let crew := initialize_crew crew_size sched t_change
  let days := pyRange 1 n_days 1
  List.scanl (step sched mainland_infection_rate r0 t_inf t_rec rng) crew days

/-- `tests_positive(w)` from `rig.py`. -/
def tests_positive (w : Worker) : Prop :=
  w.shift = Shift.ON ∧ w.infection_status = InfectionStatus.I

instance (w : Worker) : Decidable (tests_positive w) := by
  unfold tests_positive; infer_instance

/-- `count_first_positive_tests(sim, test_frequency)` from `rig.py`.
In the source's pairing `zip(test_days, test_days[1:])` the name
`crew_now` is bound to the EARLIER sampled day and `crew_past` to the
LATER one; the embedding reproduces this faithfully. -/
def count_first_positive_tests (sim : SimulationResult)
    (test_frequency : ℤ) : List ℕ :=
  let test_days := pyRange 0 (sim.length : ℤ) test_frequency
  (test_days.zip test_days.tail).map
    (fun p =>
      ((sim.getD p.1.toNat []).zip (sim.getD p.2.toNat [])).countP
        (fun q => decide (tests_positive q.1 ∧ ¬ tests_positive q.2)))

/-- The behaviour the spec ascribes to `count_first_positive_tests`:
for each pair of consecutive sampled days, count the workers who test
positive at the LATER day but did not at the EARLIER one. -/
def count_first_positive_tests_spec (sim : SimulationResult)
    (test_frequency : ℤ) : List ℕ :=
  let test_days := pyRange 0 (sim.length : ℤ) test_frequency
  (test_days.zip test_days.tail).map
    (fun p =>
      ((sim.getD p.2.toNat []).zip (sim.getD p.1.toNat [])).countP
        (fun q => decide (tests_positive q.1 ∧ ¬ tests_positive q.2)))

/-- `sim_cases(duration, peak, total_prev, t_samps, **params)` from
`rig.py`, with the mainland curve taken as a parameter: the source
builds it via `_gaussian_infection_rates` from float transcendentals
(`exp`, `sqrt`, `pi`), and the curve enters the simulation only as an
opaque `day → rate` function, so the claims about `sim_cases`' output
structure are independent of its values. -/
def sim_cases (infection_rate : ℤ → ℚ) (t_samps : List ℤ)
    (n_days crew_size : ℤ) (r0 : ℚ) (t_inf t_rec days_on days_off t_change : ℤ)
    (rng : ℤ → ℕ → ℚ) : List ℕ :=
  let sim := run_simulation n_days crew_size infection_rate r0 t_inf t_rec
    days_on days_off t_change rng
  t_samps.map (fun t_samp => (count_first_positive_tests sim t_samp).sum)

/-!
Embedding of the power estimator from `rig_sensitivity_analysis.py`.
Numpy float arrays are rational-valued nested lists; `np.quantile`
uses the default linear interpolation method.
-/

/-- Ascending sort, as performed internally by `np.quantile`. -/
def npSort (a : List ℚ) : List ℚ :=
  a.insertionSort (· ≤ ·)

/-- `np.quantile(a, q)` on a 1-D array with the default linear
interpolation: virtual index `h = q·(n−1)`, result
`s[⌊h⌋] + (h − ⌊h⌋)·(s[⌊h⌋+1] − s[⌊h⌋])` on the sorted data (the upper
index clipped to `n−1`). -/
def np_quantile (a : List ℚ) (q : ℚ) : ℚ :=
  let s := npSort a
  let n := s.length
  let h : ℚ := q * ((n : ℚ) - 1)
  let i : ℕ := (⌊h⌋).toNat
  let lo := s.getD i 0
  let hi := s.getD (min (i + 1) (n - 1)) 0
  lo + (h - (i : ℚ)) * (hi - lo)

/-- `np.mean` of a 1-D array. -/
def np_mean (l : List ℚ) : ℚ :=
  l.sum / (l.length : ℚ)

/-- `power(test_stat_control, test_stat_alt, alpha=0.05)` from
`rig_sensitivity_analysis.py`, at the shapes used by `sim_power`:
`test_stat_control : (days, sims)`, `test_stat_alt : (days, factors,
sims)`.  `np.quantile(·, 1−alpha, axis=-1)` is the per-row quantile;
`np.expand_dims(t_thresh, axis=(-1,-2))` broadcasts row `i`'s threshold
over the comparison `test_stat_alt > …`, and `np.mean(·, axis=-1)`
averages the resulting booleans over the replicate axis. -/
def power (test_stat_control : List (List ℚ))
    (test_stat_alt : List (List (List ℚ))) (alpha : ℚ) : List (List ℚ) :=
  let t_thresh := test_stat_control.map (fun row => np_quantile row (1 - alpha))
  List.zipWith
    (fun mat thr =>
      mat.map (fun row => np_mean (row.map (fun x => if thr < x then (1 : ℚ) else 0))))
    test_stat_alt t_thresh

/-- `d_null = pos_tests_control - rng.permutation(pos_tests_control,
axis=-1)` from `sim_power`: elementwise difference with an array whose
rows are (arbitrary) permutations of the control rows. -/
def d_null (pos_tests_control perm : List (List ℚ)) : List (List ℚ) :=
  List.zipWith (fun a b => List.zipWith (fun x y => x - y) a b)
    pos_tests_control perm

/-- `d_alt = pos_tests_control[:, np.newaxis, :] - pos_tests_uv` from
`sim_power`: row `i` of the control is broadcast against every
reduction-factor row of `pos_tests_uv[i]`. -/
def d_alt (pos_tests_control : List (List ℚ))
    (pos_tests_uv : List (List (List ℚ))) : List (List (List ℚ)) :=
  List.zipWith
    (fun crow mat => mat.map (fun urow => List.zipWith (fun x y => x - y) crow urow))
    pos_tests_control pos_tests_uv

/-!
Proof-layer definitions: a day-indexed view of the snapshot list and
the autonomous dynamics of the shift fields.
-/

/-- The crew snapshot on day `d`: `run_simulation` produces exactly the
sequence `crewAt 0, crewAt 1, …`. -/
def crewAt (crew_size : ℤ) (mainland_infection_rate : ℤ → ℚ) (r0 : ℚ)
    (t_inf t_rec days_on days_off t_change : ℤ) (rng : ℤ → ℕ → ℚ) : ℕ → Crew
  | 0 => initialize_crew crew_size (schedule days_on days_off) t_change
  | d + 1 =>
      step (schedule days_on days_off) mainland_infection_rate r0 t_inf t_rec rng
        (crewAt crew_size mainland_infection_rate r0 t_inf t_rec days_on days_off
          t_change rng d) ((d : ℤ) + 1)

/-- One day of the (deterministic) shift dynamics: the action of
`change_shift` on the pair `(shift, shift_changed_on)`. -/
def shiftIter (sched : Schedule) (p : Shift × ℤ) (day : ℤ) : Shift × ℤ :=
  if day - p.2 ≥ (sched p.1).length then ((sched p.1).next_shift, day) else p

/-- The shift state of a worker after days `1, …, d` of rotation. -/
def shiftAt (sched : Schedule) (p : Shift × ℤ) : ℕ → Shift × ℤ
  | 0 => p
  | d + 1 => shiftIter sched (shiftAt sched p d) ((d : ℤ) + 1)

/-- Rank of an infection status in the progression order S < E < I < R. -/
def statusRank : InfectionStatus → ℕ
  | InfectionStatus.S => 0
  | InfectionStatus.E => 1
  | InfectionStatus.I => 2
  | InfectionStatus.R => 3

/-!
Frame lemmas: each transition function touches only its own pair of
fields.
-/

theorem change_shift_infection_status (w : Worker) (day : ℤ) (sched : Schedule) :
    (change_shift w day sched).infection_status = w.infection_status := by
  unfold change_shift; dsimp only; split <;> rfl

theorem change_shift_infection_status_changed_on (w : Worker) (day : ℤ)
    (sched : Schedule) :
    (change_shift w day sched).infection_status_changed_on =
      w.infection_status_changed_on := by
  unfold change_shift; dsimp only; split <;> rfl

theorem expose_shift (w : Worker) (day : ℤ) (rates : RateMap) (r : ℚ) :
    (expose w day rates r).shift = w.shift := by
  unfold expose; split <;> rfl

theorem expose_shift_changed_on (w : Worker) (day : ℤ) (rates : RateMap) (r : ℚ) :
    (expose w day rates r).shift_changed_on = w.shift_changed_on := by
  unfold expose; split <;> rfl

theorem update_infections_shift (w : Worker) (day : ℤ) (t_inf t_rec : ℤ) :
    (update_infections w day t_inf t_rec).shift = w.shift := by
  unfold update_infections; split <;> first | rfl | (split <;> rfl)

theorem update_infections_shift_changed_on (w : Worker) (day : ℤ) (t_inf t_rec : ℤ) :
    (update_infections w day t_inf t_rec).shift_changed_on = w.shift_changed_on := by
  unfold update_infections; split <;> first | rfl | (split <;> rfl)

/-!
Positional behaviour of the daily step.
-/

theorem exposeAll_length (day : ℤ) (rates : RateMap) (rng : ℤ → ℕ → ℚ) :
    ∀ (j : ℕ) (c : Crew), (exposeAll day rates rng j c).length = c.length := by
  intro j c
  induction c generalizing j with
  | nil => rfl
  | cons w ws ih => simp [exposeAll, ih]

theorem exposeAll_getD (day : ℤ) (rates : RateMap) (rng : ℤ → ℕ → ℚ) :
    ∀ (c : Crew) (j i : ℕ), i < c.length →
      (exposeAll day rates rng j c).getD i default =
        expose (c.getD i default) day rates (rng day (j + i)) := by
  intro c
  induction c with
  | nil => intro j i h; simp at h
  | cons w ws ih =>
      intro j i h
      cases i with
      | zero => simp [exposeAll]
      | succ i =>
          simp only [List.length_cons, Nat.succ_lt_succ_iff] at h
          have heq : j + 1 + i = j + (i + 1) := by omega
          simp only [exposeAll, List.getD_cons_succ, ih (j + 1) i h, heq]

theorem step_length (sched : Schedule) (mainland_infection_rate : ℤ → ℚ)
    (r0 : ℚ) (t_inf t_rec : ℤ) (rng : ℤ → ℕ → ℚ) (c : Crew) (day : ℤ) :
    (step sched mainland_infection_rate r0 t_inf t_rec rng c day).length =
      c.length := by
  unfold step
  rw [exposeAll_length, List.length_map]

theorem step_getD (sched : Schedule) (mainland_infection_rate : ℤ → ℚ)
    (r0 : ℚ) (t_inf t_rec : ℤ) (rng : ℤ → ℕ → ℚ) (c : Crew) (day : ℤ)
    (i : ℕ) (hi : i < c.length) :
    (step sched mainland_infection_rate r0 t_inf t_rec rng c day).getD i default =
      expose
        (update_infections (change_shift (c.getD i default) day sched) day t_inf t_rec)
        day
        (infection_rates mainland_infection_rate r0 t_inf t_rec
          (c.map (fun w => update_infections (change_shift w day sched) day t_inf t_rec))
          day)
        (rng day i) := by
  unfold step
  rw [exposeAll_getD day _ rng _ 0 i (by rw [List.length_map]; exact hi)]
  rw [Nat.zero_add]
  congr 1
  rw [List.getD_eq_getElem _ _ (by rw [List.length_map]; exact hi),
    List.getElem_map, List.getD_eq_getElem _ _ hi]

/-!
Indexing `run_simulation`'s `scanl` output.
-/

theorem scanl_getD_zero {α β : Type} (f : α → β → α) (b : α) (l : List β)
    (dflt : α) : (List.scanl f b l).getD 0 dflt = b := by
  cases l <;> rfl

theorem scanl_getD_succ {α β : Type} (f : α → β → α) (dfltA : α) (dfltB : β) :
    ∀ (l : List β) (b : α) (n : ℕ), n < l.length →
      (List.scanl f b l).getD (n + 1) dfltA =
        f ((List.scanl f b l).getD n dfltA) (l.getD n dfltB) := by
  intro l
  induction l with
  | nil => intro b n h; simp at h
  | cons a t ih =>
      intro b n h
      cases n with
      | zero => simp [List.scanl, scanl_getD_zero]
      | succ n =>
          simp only [List.length_cons, Nat.succ_lt_succ_iff] at h
          simp only [List.scanl, List.getD_cons_succ]
          exact ih (f b a) n h

theorem pyRange_length (start stop step : ℤ) :
    (pyRange start stop step).length =
      ((stop - start + step - 1).fdiv step).toNat := by
  unfold pyRange
  rw [List.length_map, List.length_range]

theorem pyRange_getD (start stop step : ℤ) (i : ℕ)
    (hi : i < (pyRange start stop step).length) :
    (pyRange start stop step).getD i 0 = start + step * (i : ℤ) := by
  unfold pyRange at hi ⊢
  rw [List.getD_eq_getElem _ _ hi, List.getElem_map, List.getElem_range]

theorem run_simulation_length (n_days crew_size : ℤ)
    (mainland_infection_rate : ℤ → ℚ) (r0 : ℚ)
    (t_inf t_rec days_on days_off t_change : ℤ) (rng : ℤ → ℕ → ℚ) :
    (run_simulation n_days crew_size mainland_infection_rate r0 t_inf t_rec
        days_on days_off t_change rng).length = (n_days - 1).toNat + 1 := by
  unfold run_simulation
  rw [List.length_scanl, pyRange_length]
  congr 2
  rw [Int.fdiv_one]
  ring

theorem run_simulation_getD (n_days crew_size : ℤ)
    (mainland_infection_rate : ℤ → ℚ) (r0 : ℚ)
    (t_inf t_rec days_on days_off t_change : ℤ) (rng : ℤ → ℕ → ℚ)
    (d : ℕ) (hd : d < (n_days - 1).toNat + 1) :
    (run_simulation n_days crew_size mainland_infection_rate r0 t_inf t_rec
        days_on days_off t_change rng).getD d [] =
      crewAt crew_size mainland_infection_rate r0 t_inf t_rec days_on days_off
        t_change rng d := by
  have hlen : (pyRange 1 n_days 1).length = (n_days - 1).toNat := by
    rw [pyRange_length, Int.fdiv_one]
    congr 1
    ring
  induction d with
  | zero =>
      unfold run_simulation
      rw [scanl_getD_zero]
      rfl
  | succ d ih =>
      have hd' : d < (n_days - 1).toNat + 1 := Nat.lt_of_succ_lt hd
      have hdr : d < (pyRange 1 n_days 1).length := by omega
      unfold run_simulation at ih ⊢
      rw [scanl_getD_succ _ _ 0 _ _ d hdr, ih hd', pyRange_getD 1 n_days 1 d hdr]
      have harg : (1 : ℤ) + 1 * (d : ℤ) = (d : ℤ) + 1 := by ring
      rw [harg]
      rfl

theorem crewAt_length (crew_size : ℤ) (mainland_infection_rate : ℤ → ℚ)
    (r0 : ℚ) (t_inf t_rec days_on days_off t_change : ℤ) (rng : ℤ → ℕ → ℚ)
    (d : ℕ) :
    (crewAt crew_size mainland_infection_rate r0 t_inf t_rec days_on days_off
        t_change rng d).length =
      (initialize_crew crew_size (schedule days_on days_off) t_change).length := by
  induction d with
  | zero => rfl
  | succ d ih => unfold crewAt; rw [step_length, ih]

/-!
The shift fields evolve autonomously: one simulated day acts on the
pair `(shift, shift_changed_on)` exactly as `shiftIter` does.
-/

theorem change_shift_pair (w : Worker) (day : ℤ) (sched : Schedule) :
    ((change_shift w day sched).shift, (change_shift w day sched).shift_changed_on) =
      shiftIter sched (w.shift, w.shift_changed_on) day := by
  unfold change_shift shiftIter
  dsimp only
  split <;> rfl

theorem step_shift_pair (sched : Schedule) (mainland_infection_rate : ℤ → ℚ)
    (r0 : ℚ) (t_inf t_rec : ℤ) (rng : ℤ → ℕ → ℚ) (c : Crew) (day : ℤ)
    (i : ℕ) (hi : i < c.length) :
    (((step sched mainland_infection_rate r0 t_inf t_rec rng c day).getD i default).shift,
      ((step sched mainland_infection_rate r0 t_inf t_rec rng c day).getD i
        default).shift_changed_on) =
      shiftIter sched
        ((c.getD i default).shift, (c.getD i default).shift_changed_on) day := by
  rw [step_getD sched mainland_infection_rate r0 t_inf t_rec rng c day i hi,
    expose_shift, expose_shift_changed_on, update_infections_shift,
    update_infections_shift_changed_on]
  exact change_shift_pair _ _ _

theorem crewAt_shift_pair (crew_size : ℤ) (mainland_infection_rate : ℤ → ℚ)
    (r0 : ℚ) (t_inf t_rec days_on days_off t_change : ℤ) (rng : ℤ → ℕ → ℚ)
    (d i : ℕ)
    (hi : i < (initialize_crew crew_size (schedule days_on days_off) t_change).length) :
    (((crewAt crew_size mainland_infection_rate r0 t_inf t_rec days_on days_off
          t_change rng d).getD i default).shift,
      ((crewAt crew_size mainland_infection_rate r0 t_inf t_rec days_on days_off
          t_change rng d).getD i default).shift_changed_on) =
      shiftAt (schedule days_on days_off)
        (((initialize_crew crew_size (schedule days_on days_off) t_change).getD i
            default).shift,
          ((initialize_crew crew_size (schedule days_on days_off) t_change).getD i
            default).shift_changed_on) d := by
  induction d with
  | zero => rfl
  | succ d ih =>
      have hlen : i < (crewAt crew_size mainland_infection_rate r0 t_inf t_rec
          days_on days_off t_change rng d).length := by
        rw [crewAt_length]; exact hi
      have hstep : crewAt crew_size mainland_infection_rate r0 t_inf t_rec days_on
          days_off t_change rng (d + 1) =
          step (schedule days_on days_off) mainland_infection_rate r0 t_inf t_rec rng
            (crewAt crew_size mainland_infection_rate r0 t_inf t_rec days_on days_off
              t_change rng d) ((d : ℤ) + 1) := rfl
      rw [hstep, step_shift_pair _ _ _ _ _ _ _ _ i hlen, ih]
      rfl

/-!
Infection statuses only move forward along S → E → I → R.
-/

theorem expose_statusRank_le (w : Worker) (day : ℤ) (rates : RateMap) (r : ℚ) :
    statusRank w.infection_status ≤
      statusRank (expose w day rates r).infection_status := by
  unfold expose
  split
  · rename_i h
    rw [h.1]
    exact Nat.le_succ 0
  · exact Nat.le_refl _

theorem update_infections_statusRank_le (w : Worker) (day : ℤ) (t_inf t_rec : ℤ) :
    statusRank w.infection_status ≤
      statusRank (update_infections w day t_inf t_rec).infection_status := by
  unfold update_infections
  split
  · rename_i h
    rw [h.1]
    exact Nat.le_succ 1
  · split
    · rename_i _ h
      rw [h.1]
      exact Nat.le_succ 2
    · exact Nat.le_refl _

theorem step_statusRank_le (sched : Schedule) (mainland_infection_rate : ℤ → ℚ)
    (r0 : ℚ) (t_inf t_rec : ℤ) (rng : ℤ → ℕ → ℚ) (c : Crew) (day : ℤ)
    (i : ℕ) (hi : i < c.length) :
    statusRank ((c.getD i default).infection_status) ≤
      statusRank (((step sched mainland_infection_rate r0 t_inf t_rec rng c
        day).getD i default).infection_status) := by
  rw [step_getD sched mainland_infection_rate r0 t_inf t_rec rng c day i hi]
  calc statusRank ((c.getD i default).infection_status)
      = statusRank ((change_shift (c.getD i default) day sched).infection_status) := by
        rw [change_shift_infection_status]
    _ ≤ statusRank ((update_infections (change_shift (c.getD i default) day sched)
          day t_inf t_rec).infection_status) :=
        update_infections_statusRank_le _ _ _ _
    _ ≤ _ := expose_statusRank_le _ _ _ _

theorem crewAt_statusRank_mono (crew_size : ℤ) (mainland_infection_rate : ℤ → ℚ)
    (r0 : ℚ) (t_inf t_rec days_on days_off t_change : ℤ) (rng : ℤ → ℕ → ℚ)
    (d d' i : ℕ) (hdd : d ≤ d')
    (hi : i < (initialize_crew crew_size (schedule days_on days_off) t_change).length) :
    statusRank (((crewAt crew_size mainland_infection_rate r0 t_inf t_rec days_on
        days_off t_change rng d).getD i default).infection_status) ≤
      statusRank (((crewAt crew_size mainland_infection_rate r0 t_inf t_rec days_on
        days_off t_change rng d').getD i default).infection_status) := by
  induction d' with
  | zero =>
      have : d = 0 := Nat.le_zero.mp hdd
      rw [this]
  | succ d' ih =>
      rcases Nat.lt_or_ge d (d' + 1) with h | h
      · have hd : d ≤ d' := Nat.lt_succ_iff.mp h
        refine Nat.le_trans (ih hd) ?_
        have hlen : i < (crewAt crew_size mainland_infection_rate r0 t_inf t_rec
            days_on days_off t_change rng d').length := by
          rw [crewAt_length]; exact hi
        exact step_statusRank_le _ _ _ _ _ _ _ _ i hlen
      · have : d = d' + 1 := Nat.le_antisymm hdd h
        rw [this]

/-!
Structure of the initial crew.
-/

theorem cycleTake_length {α : Type} (l : List α) (hl : l ≠ []) (n : ℕ) :
    (cycleTake l n).length = n := by
  match l, hl with
  | a :: tl, _ => simp [cycleTake]

theorem cycleTake_getD {α : Type} (l : List α) (hl : l ≠ []) (n i : ℕ)
    (hi : i < n) (dflt : α) :
    (cycleTake l n).getD i dflt = l.getD (i % l.length) dflt := by
  match l, hl with
  | a :: tl, _ =>
      have hmod : i % (a :: tl).length < (a :: tl).length :=
        Nat.mod_lt _ (by simp)
      have hlen : i < (List.map
          (fun i => (a :: tl).getD (i % (a :: tl).length) a) (List.range n)).length := by
        simpa using hi
      unfold cycleTake
      rw [List.getD_eq_getElem _ _ hlen, List.getElem_map, List.getElem_range,
        List.getD_eq_getElem _ _ hmod, List.getD_eq_getElem _ _ hmod]

theorem pyRange_zero_length_pos (L t : ℤ) (hL : 1 ≤ L) (ht : 1 ≤ t) :
    1 ≤ (pyRange 0 L t).length := by
  rw [pyRange_length]
  have h1 : 1 ≤ (L - 0 + t - 1).fdiv t := by
    rw [Int.fdiv_eq_ediv _ (by omega), Int.le_ediv_iff_mul_le (by omega)]
    omega
  omega

theorem pyRange_zero_getD_bounds (L t : ℤ) (hL : 1 ≤ L) (ht : 1 ≤ t) (k : ℕ)
    (hk : k < (pyRange 0 L t).length) :
    0 ≤ (pyRange 0 L t).getD k 0 ∧ (pyRange 0 L t).getD k 0 < L := by
  rw [pyRange_getD _ _ _ _ hk]
  constructor
  · have : (0 : ℤ) ≤ t * (k : ℤ) := by positivity
    omega
  · rw [pyRange_length] at hk
    have hk' : (k : ℤ) + 1 ≤ (L - 0 + t - 1).fdiv t := by omega
    have hmul : ((k : ℤ) + 1) * t ≤ ((L - 0 + t - 1).fdiv t) * t :=
      mul_le_mul_of_nonneg_right hk' (by omega)
    have hle : ((L - 0 + t - 1).fdiv t) * t ≤ L - 0 + t - 1 := by
      rw [Int.fdiv_eq_ediv _ (by omega)]
      exact Int.ediv_mul_le _ (by omega)
    nlinarith

theorem generate_shift_length (s : Shift) (crew_size : ℤ) (sched : Schedule)
    (t_change : ℤ) (hL : 1 ≤ (sched s).length) (ht : 1 ≤ t_change) :
    (generate_shift s crew_size sched t_change).length =
      ((crew_size * (sched s).length).fdiv (sched Shift.ON).length).toNat := by
  unfold generate_shift
  refine cycleTake_length _ ?_ _
  have := pyRange_zero_length_pos (sched s).length t_change hL ht
  intro hcon
  rw [← List.length_eq_zero] at hcon
  rw [List.length_map] at hcon
  omega

theorem generate_shift_getD (s : Shift) (crew_size : ℤ) (sched : Schedule)
    (t_change : ℤ) (hL : 1 ≤ (sched s).length) (ht : 1 ≤ t_change) (i : ℕ)
    (hi : i < (generate_shift s crew_size sched t_change).length) :
    (generate_shift s crew_size sched t_change).getD i default =
      Worker.mk s
        (t_change * ((i % (pyRange 0 (sched s).length t_change).length : ℕ) : ℤ))
        InfectionStatus.S 0 := by
  have hm : 1 ≤ (pyRange 0 (sched s).length t_change).length :=
    pyRange_zero_length_pos _ _ hL ht
  have hne : (pyRange 0 (sched s).length t_change).map
      (fun d => Worker.mk s d InfectionStatus.S 0) ≠ [] := by
    intro hcon
    rw [← List.length_eq_zero, List.length_map] at hcon
    omega
  rw [generate_shift_length s crew_size sched t_change hL ht] at hi
  unfold generate_shift
  rw [cycleTake_getD _ hne _ i hi, List.length_map]
  have hmod : i % (pyRange 0 (sched s).length t_change).length <
      (pyRange 0 (sched s).length t_change).length := Nat.mod_lt _ (by omega)
  rw [List.getD_eq_getElem _ _ (by rw [List.length_map]; exact hmod),
    List.getElem_map, ← List.getD_eq_getElem _ 0 hmod,
    pyRange_getD _ _ _ _ hmod]
  rw [zero_add]

theorem initialize_crew_length (crew_size : ℤ) (sched : Schedule) (t_change : ℤ)
    (hON : 1 ≤ (sched Shift.ON).length) (hOFF : 1 ≤ (sched Shift.OFF).length)
    (ht : 1 ≤ t_change) :
    (initialize_crew crew_size sched t_change).length =
      ((crew_size * (sched Shift.ON).length).fdiv (sched Shift.ON).length).toNat +
        ((crew_size * (sched Shift.OFF).length).fdiv (sched Shift.ON).length).toNat := by
  unfold initialize_crew
  rw [List.length_append, generate_shift_length _ _ _ _ hON ht,
    generate_shift_length _ _ _ _ hOFF ht]

/-!
The rotation invariant and the paired ON/OFF dynamics.
-/

theorem shiftAt_inv (sched : Schedule) (hpos : ∀ s, 1 ≤ (sched s).length)
    (p : Shift × ℤ) (h0 : -p.2 < (sched p.1).length) (d : ℕ) :
    (d : ℤ) - (shiftAt sched p d).2 < (sched (shiftAt sched p d).1).length := by
  induction d with
  | zero => simpa using h0
  | succ d _ =>
      show ((d + 1 : ℕ) : ℤ) - (shiftIter sched (shiftAt sched p d) ((d : ℤ) + 1)).2 <
        (sched (shiftIter sched (shiftAt sched p d) ((d : ℤ) + 1)).1).length
      unfold shiftIter
      split
      · have := hpos ((sched (shiftAt sched p d).1).next_shift)
        dsimp only
        push_cast
        omega
      · rename_i h
        push_cast
        omega

theorem schedule_next_ne (days_on days_off : ℤ) (s : Shift) :
    (schedule days_on days_off s).next_shift ≠ s := by
  cases s <;> simp [schedule]

theorem schedule_length_eq (T : ℤ) (s : Shift) : ((schedule T T) s).length = T := by
  cases s <;> rfl

theorem shiftAt_pair_opposite (T s : ℤ) (d : ℕ) :
    (shiftAt (schedule T T) (Shift.ON, s) d).1 ≠
        (shiftAt (schedule T T) (Shift.OFF, s) d).1 ∧
      (shiftAt (schedule T T) (Shift.ON, s) d).2 =
        (shiftAt (schedule T T) (Shift.OFF, s) d).2 := by
  induction d with
  | zero =>
      refine ⟨?_, rfl⟩
      intro h
      exact Shift.noConfusion h
  | succ d ih =>
      obtain ⟨hne, hsco⟩ := ih
      have hnext : ∀ a b : Shift, a ≠ b →
          ((schedule T T) a).next_shift ≠ ((schedule T T) b).next_shift := by
        intro a b hab
        cases a <;> cases b <;> simp_all [schedule]
      have eON : shiftAt (schedule T T) (Shift.ON, s) (d + 1) =
          shiftIter (schedule T T) (shiftAt (schedule T T) (Shift.ON, s) d)
            ((d : ℤ) + 1) := rfl
      have eOFF : shiftAt (schedule T T) (Shift.OFF, s) (d + 1) =
          shiftIter (schedule T T) (shiftAt (schedule T T) (Shift.OFF, s) d)
            ((d : ℤ) + 1) := rfl
      rw [eON, eOFF]
      unfold shiftIter
      rw [schedule_length_eq, schedule_length_eq, hsco]
      by_cases hc : (d : ℤ) + 1 - (shiftAt (schedule T T) (Shift.OFF, s) d).2 ≥ T
      · rw [if_pos hc, if_pos hc]
        exact ⟨hnext _ _ hne, rfl⟩
      · rw [if_neg hc, if_neg hc]
        exact ⟨hne, hsco⟩

theorem countP_pointwise_oppose (p : Worker → Bool) :
    ∀ (a b : List Worker), a.length = b.length →
      (∀ (i : ℕ) (ha : i < a.length) (hb : i < b.length),
        p (a.get ⟨i, ha⟩) = !(p (b.get ⟨i, hb⟩))) →
      a.countP p + b.countP p = a.length := by
  intro a
  induction a with
  | nil =>
      intro b hlen _
      have : b = [] := by
        cases b with
        | nil => rfl
        | cons y ys => simp at hlen
      rw [this]
      rfl
  | cons x xs ih =>
      intro b hlen hpt
      cases b with
      | nil => simp at hlen
      | cons y ys =>
          have h0 : p x = !(p y) := hpt 0 (by simp) (by simp)
          have hlen' : xs.length = ys.length := by simpa using hlen
          have hrest : ∀ (i : ℕ) (hi : i < xs.length) (hi' : i < ys.length),
              p (xs.get ⟨i, hi⟩) = !(p (ys.get ⟨i, hi'⟩)) := by
            intro i hi hi'
            exact hpt (i + 1) (by simpa using Nat.succ_lt_succ hi)
              (by simpa using Nat.succ_lt_succ hi')
          have hsum := ih ys hlen' hrest
          rw [List.countP_cons, List.countP_cons, List.length_cons]
          cases hpx : p x <;> rw [hpx] at h0 <;> simp at h0 <;> simp [h0] <;> omega

theorem count_shift_of_pair (c : List Worker) (n : ℕ) (hlen : c.length = n + n)
    (hpair : ∀ (i : ℕ), i < n →
      ((c.getD i default).shift = Shift.ON ↔
        ¬ ((c.getD (n + i) default).shift = Shift.ON))) :
    count_shift c Shift.ON = n := by
  have htk : (c.take n).length = n := by
    rw [List.length_take]
    omega
  have hdp : (c.drop n).length = n := by
    rw [List.length_drop]
    omega
  unfold count_shift
  have hpt : ∀ (i : ℕ) (ha : i < (c.take n).length) (hb : i < (c.drop n).length),
      (fun w => decide (w.shift = Shift.ON)) ((c.take n).get ⟨i, ha⟩) =
        !((fun w => decide (w.shift = Shift.ON)) ((c.drop n).get ⟨i, hb⟩)) := by
    intro i ha hb
    have hia : i < n := by rw [htk] at ha; exact ha
    have hc1 : i < c.length := by omega
    have hc2 : n + i < c.length := by omega
    have e1 : (c.take n).get ⟨i, ha⟩ = c.getD i default := by
      rw [List.getD_eq_getElem _ _ hc1, List.get_eq_getElem]
      exact List.getElem_take _
    have e2 : (c.drop n).get ⟨i, hb⟩ = c.getD (n + i) default := by
      rw [List.getD_eq_getElem _ _ hc2, List.get_eq_getElem]
      exact List.getElem_drop _
    rw [e1, e2]
    have := hpair i hia
    by_cases h1 : (c.getD i default).shift = Shift.ON <;>
      by_cases h2 : (c.getD (n + i) default).shift = Shift.ON <;>
        simp_all
  have key := countP_pointwise_oppose (fun w => decide (w.shift = Shift.ON))
    (c.take n) (c.drop n) (by rw [htk, hdp]) hpt
  rw [htk] at key
  calc List.countP (fun w => decide (w.shift = Shift.ON)) c
      = List.countP (fun w => decide (w.shift = Shift.ON)) (c.take n ++ c.drop n) := by
        rw [List.take_append_drop]
    _ = List.countP (fun w => decide (w.shift = Shift.ON)) (c.take n) +
          List.countP (fun w => decide (w.shift = Shift.ON)) (c.drop n) :=
        List.countP_append _ _ _
    _ = n := key

/-!
Claim theorems.
-/

/-- C10: each per-worker transition touches only its own pair of
fields: `change_shift` leaves both infection fields unchanged, and
`expose` and `update_infections` leave both shift fields unchanged,
for every worker, day, schedule, rate map, draw and stage durations. -/
theorem C10_frame_conditions (w : Worker) (day : ℤ) (sched : Schedule)
    (rates : RateMap) (r : ℚ) (t_inf t_rec : ℤ) :
    (change_shift w day sched).infection_status = w.infection_status ∧
    (change_shift w day sched).infection_status_changed_on =
      w.infection_status_changed_on ∧
    (expose w day rates r).shift = w.shift ∧
    (expose w day rates r).shift_changed_on = w.shift_changed_on ∧
    (update_infections w day t_inf t_rec).shift = w.shift ∧
    (update_infections w day t_inf t_rec).shift_changed_on = w.shift_changed_on :=
  ⟨change_shift_infection_status w day sched,
    change_shift_infection_status_changed_on w day sched,
    expose_shift w day rates r,
    expose_shift_changed_on w day rates r,
    update_infections_shift w day t_inf t_rec,
    update_infections_shift_changed_on w day t_inf t_rec⟩

/-- C1 (code bug): on the two-day trace in which the single on-site
worker is Exposed on day 0 and Infectious on day 1 with daily testing,
`count_first_positive_tests` returns `[0]` — the source's
`zip(test_days, test_days[1:])` binds `crew_now` to the EARLIER day and
`crew_past` to the LATER day, so it counts workers whose positive test
disappeared — while the documented behaviour (first detections: positive
at the later sampled day, not at the earlier) yields `[1]`. -/
theorem C1_count_first_positive_tests_reversed :
    count_first_positive_tests
        [[Worker.mk Shift.ON 0 InfectionStatus.E 0],
         [Worker.mk Shift.ON 0 InfectionStatus.I 1]] 1 = [0] ∧
      count_first_positive_tests_spec
        [[Worker.mk Shift.ON 0 InfectionStatus.E 0],
         [Worker.mk Shift.ON 0 InfectionStatus.I 1]] 1 = [1] := by
  constructor <;> decide

/-- C2 (code bug): `sim_cases` returns one total per sampling
frequency and nothing else: with `t_samps = [1, 3]` the result has
length 2, not the `1 + len(t_samps) = 3` promised by its docstring
(`[imported_cases, positives_at_each_sampling_frequency…]`) — no
imported-case element is prepended. -/
theorem C2_sim_cases_length_no_imported_element :
    (sim_cases (fun _ => 0) [1, 3] 3 1 0 1 2 1 1 1 (fun _ _ => 1)).length = 2 ∧
      (2 : ℕ) ≠ 1 + ([1, 3] : List ℤ).length := by
  constructor
  · unfold sim_cases
    rw [List.length_map]
    rfl
  · decide

/-- C3 counterexample: with the end-to-end scenario's parameters
(`crew_size = 120`, `days_on = days_off = 28`, …) the day-0 snapshot
contains 240 workers (`crew_size` on shift ON plus
`crew_size·28//28 = 120` on shift OFF), not 120 as the claim states. -/
theorem C3_snapshot_has_240_workers :
    ((run_simulation 365 120 (fun d => if d < 100 then (1 / 20 : ℚ) else 0)
        (13 / 10) 2 12 28 28 7 (fun _ _ => 1)).getD 0 []).length = 240 ∧
      (240 : ℕ) ≠ 120 := by
  constructor
  · rw [run_simulation_getD 365 120 _ _ _ _ _ _ _ _ 0 (by omega)]
    decide
  · decide

/-- C3 (amended): with `crew_size=120, r0=1.3, t_inf=2, t_rec=12,
days_on=28, days_off=28, t_change=7, n_days=365` and a mainland rate of
`0.05` before day 100 and `0` afterwards, `run_simulation` returns
exactly 365 snapshots and every snapshot contains exactly 240 workers
(120 allocated to each of the two shifts), whatever the random draws. -/
theorem C3_amended_run_simulation_sizes (rng : ℤ → ℕ → ℚ) :
    (run_simulation 365 120 (fun d => if d < 100 then (1 / 20 : ℚ) else 0)
        (13 / 10) 2 12 28 28 7 rng).length = 365 ∧
      ∀ d : ℕ, d < 365 →
        ((run_simulation 365 120 (fun d => if d < 100 then (1 / 20 : ℚ) else 0)
          (13 / 10) 2 12 28 28 7 rng).getD d []).length = 240 := by
  constructor
  · rw [run_simulation_length]
    decide
  · intro d hd
    rw [run_simulation_getD 365 120 _ _ _ _ _ _ _ _ d (by omega),
      crewAt_length]
    decide

/-- Witness for C3 (amended) at a concrete oracle and day. -/
theorem C3_amended_witness :
    (run_simulation 365 120 (fun d => if d < 100 then (1 / 20 : ℚ) else 0)
        (13 / 10) 2 12 28 28 7 (fun _ _ => 0)).length = 365 ∧
      ((run_simulation 365 120 (fun d => if d < 100 then (1 / 20 : ℚ) else 0)
        (13 / 10) 2 12 28 28 7 (fun _ _ => 0)).getD 3 []).length = 240 :=
  ⟨(C3_amended_run_simulation_sizes (fun _ _ => 0)).1,
    (C3_amended_run_simulation_sizes (fun _ _ => 0)).2 3 (by norm_num)⟩

/-- C6 counterexample: with `t_change = 3` and shift length 7 the
staggering offsets are NOT `k·t_change mod length`: the ON shift of
size 4 gives worker 3 the offset `0` (the cycle restarts after the
offsets `0, 3, 6`), whereas `(3·3) mod 7 = 2`. -/
theorem C6_offsets_not_modulo_length :
    ((generate_shift Shift.ON 4 (schedule 7 7) 3).getD 3 default).shift_changed_on
        = 0 ∧
      (0 : ℤ) ≠ (3 * 3) % 7 := by
  constructor <;> decide

/-- C6 (amended): for positive `crew_size`, `t_change` and shift
lengths, shift `s` receives exactly
`crew_size * sched[s].length // sched[ON].length` workers, and worker
`i` of the shift has `shift_changed_on = t_change · (i mod m)` where
`m = ⌈sched[s].length / t_change⌉` is the number of staggering offsets
(`0, t_change, 2·t_change, …` below the shift length, cycled); every
worker starts Susceptible with `infection_status_changed_on = 0`. -/
theorem C6_amended_generate_shift (s : Shift) (crew_size : ℤ) (sched : Schedule)
    (t_change : ℤ) (hcs : 1 ≤ crew_size) (ht : 1 ≤ t_change)
    (hL : 1 ≤ (sched s).length) (hON : 1 ≤ (sched Shift.ON).length) :
    ((generate_shift s crew_size sched t_change).length : ℤ) =
        (crew_size * (sched s).length).fdiv (sched Shift.ON).length ∧
      ∀ i : ℕ, i < (generate_shift s crew_size sched t_change).length →
        (generate_shift s crew_size sched t_change).getD i default =
          Worker.mk s
            (t_change *
              ((i % (((sched s).length + t_change - 1).fdiv t_change).toNat : ℕ) : ℤ))
            InfectionStatus.S 0 := by
  have hnum : 0 ≤ (crew_size * (sched s).length).fdiv (sched Shift.ON).length := by
    rw [Int.fdiv_eq_ediv _ (by omega)]
    exact Int.ediv_nonneg (by nlinarith) (by omega)
  constructor
  · rw [generate_shift_length s crew_size sched t_change hL ht]
    omega
  · intro i hi
    rw [generate_shift_getD s crew_size sched t_change hL ht i hi]
    have hm : (pyRange 0 (sched s).length t_change).length =
        (((sched s).length + t_change - 1).fdiv t_change).toNat := by
      rw [pyRange_length]
      congr 2
      ring
    rw [hm]

/-- Witness for C6 (amended): the concrete shift of the counterexample
satisfies the amended description. -/
theorem C6_amended_witness :
    ((generate_shift Shift.ON 4 (schedule 7 7) 3).length : ℤ) =
        (4 * ((schedule 7 7) Shift.ON).length).fdiv ((schedule 7 7) Shift.ON).length ∧
      (generate_shift Shift.ON 4 (schedule 7 7) 3).getD 3 default =
        Worker.mk Shift.ON
          (3 * ((3 % ((((schedule 7 7) Shift.ON).length + 3 - 1).fdiv 3).toNat : ℕ) : ℤ))
          InfectionStatus.S 0 :=
  ⟨(C6_amended_generate_shift Shift.ON 4 (schedule 7 7) 3 (by decide) (by decide)
      (by decide) (by decide)).1,
    (C6_amended_generate_shift Shift.ON 4 (schedule 7 7) 3 (by decide) (by decide)
      (by decide) (by decide)).2 3 (by decide)⟩

/-- C5: for every simulated day `d` (`1 ≤ d < n_days`), the day-`d`
snapshot is obtained from the day-`(d−1)` snapshot by applying shift
rotation to every worker, then infection-stage progression to every
worker, then computing the rate map from that updated crew — OFF rate
`mainland_infection_rate d`, ON rate
`r0 · (infectious-on-site / on-site) / (t_rec − t_inf)` — and only then
the exposure draw for every worker with those rates. -/
theorem C5_step_order (n_days crew_size : ℤ) (mainland_infection_rate : ℤ → ℚ)
    (r0 : ℚ) (t_inf t_rec days_on days_off t_change : ℤ) (rng : ℤ → ℕ → ℚ)
    (d : ℕ) (hd1 : 1 ≤ d)
    (hd : d < (run_simulation n_days crew_size mainland_infection_rate r0 t_inf
      t_rec days_on days_off t_change rng).length) :
    (run_simulation n_days crew_size mainland_infection_rate r0 t_inf t_rec
        days_on days_off t_change rng).getD d [] =
      exposeAll (d : ℤ)
        (fun s =>
          match s with
          | Shift.OFF => mainland_infection_rate (d : ℤ)
          | Shift.ON =>
              r0 *
                ((count_status
                    ((((run_simulation n_days crew_size mainland_infection_rate r0
                        t_inf t_rec days_on days_off t_change rng).getD (d - 1)
                        []).map
                      (fun w => change_shift w (d : ℤ) (schedule days_on days_off))).map
                      (fun w => update_infections w (d : ℤ) t_inf t_rec))
                    InfectionStatus.I (some Shift.ON) : ℚ) /
                  (count_shift
                    ((((run_simulation n_days crew_size mainland_infection_rate r0
                        t_inf t_rec days_on days_off t_change rng).getD (d - 1)
                        []).map
                      (fun w => change_shift w (d : ℤ) (schedule days_on days_off))).map
                      (fun w => update_infections w (d : ℤ) t_inf t_rec))
                    Shift.ON : ℚ)) / ((t_rec - t_inf : ℤ) : ℚ))
        rng 0
        ((((run_simulation n_days crew_size mainland_infection_rate r0 t_inf t_rec
            days_on days_off t_change rng).getD (d - 1) []).map
          (fun w => change_shift w (d : ℤ) (schedule days_on days_off))).map
          (fun w => update_infections w (d : ℤ) t_inf t_rec)) := by
  have hN : d < (n_days - 1).toNat + 1 := by
    rwa [run_simulation_length] at hd
  obtain ⟨e, rfl⟩ : ∃ e, d = e + 1 := ⟨d - 1, by omega⟩
  rw [run_simulation_getD _ _ _ _ _ _ _ _ _ _ (e + 1) hN]
  simp only [Nat.add_sub_cancel]
  rw [run_simulation_getD _ _ _ _ _ _ _ _ _ _ e (by omega)]
  have hc : crewAt crew_size mainland_infection_rate r0 t_inf t_rec days_on
      days_off t_change rng (e + 1) =
      step (schedule days_on days_off) mainland_infection_rate r0 t_inf t_rec rng
        (crewAt crew_size mainland_infection_rate r0 t_inf t_rec days_on days_off
          t_change rng e) ((e : ℤ) + 1) := rfl
  have hcast : (((e + 1 : ℕ)) : ℤ) = (e : ℤ) + 1 := by push_cast; ring
  rw [hc, hcast]
  simp only [step, infection_rates, List.map_map]
  rfl

/-- Witness for C5 at a concrete parameter set, oracle and day. -/
theorem C5_step_order_witness :
    (run_simulation 2 1 (fun _ => 0) 0 1 2 1 1 1 (fun _ _ => 1)).getD 1 [] =
      exposeAll ((1 : ℕ) : ℤ)
        (fun s =>
          match s with
          | Shift.OFF => (fun (_ : ℤ) => (0 : ℚ)) ((1 : ℕ) : ℤ)
          | Shift.ON =>
              0 *
                ((count_status
                    ((((run_simulation 2 1 (fun _ => 0) 0 1 2 1 1 1
                        (fun _ _ => 1)).getD (1 - 1) []).map
                      (fun w => change_shift w ((1 : ℕ) : ℤ) (schedule 1 1))).map
                      (fun w => update_infections w ((1 : ℕ) : ℤ) 1 2))
                    InfectionStatus.I (some Shift.ON) : ℚ) /
                  (count_shift
                    ((((run_simulation 2 1 (fun _ => 0) 0 1 2 1 1 1
                        (fun _ _ => 1)).getD (1 - 1) []).map
                      (fun w => change_shift w ((1 : ℕ) : ℤ) (schedule 1 1))).map
                      (fun w => update_infections w ((1 : ℕ) : ℤ) 1 2))
                    Shift.ON : ℚ)) / (((2 : ℤ) - 1 : ℤ) : ℚ))
        (fun _ _ => 1) 0
        ((((run_simulation 2 1 (fun _ => 0) 0 1 2 1 1 1 (fun _ _ => 1)).getD
            (1 - 1) []).map
          (fun w => change_shift w ((1 : ℕ) : ℤ) (schedule 1 1))).map
          (fun w => update_infections w ((1 : ℕ) : ℤ) 1 2)) :=
  C5_step_order 2 1 (fun _ => 0) 0 1 2 1 1 1 (fun _ _ => 1) 1 (by omega) (by decide)

/-- C7: along any run, each worker's infection status (matched by
position across snapshots) is non-decreasing in the order
S < E < I < R: it never regresses and never returns to Susceptible. -/
theorem C7_infection_status_monotone (n_days crew_size : ℤ)
    (mainland_infection_rate : ℤ → ℚ) (r0 : ℚ)
    (t_inf t_rec days_on days_off t_change : ℤ) (rng : ℤ → ℕ → ℚ)
    (d d' i : ℕ) (hdd : d ≤ d')
    (hd' : d' < (run_simulation n_days crew_size mainland_infection_rate r0 t_inf
      t_rec days_on days_off t_change rng).length)
    (hi : i < ((run_simulation n_days crew_size mainland_infection_rate r0 t_inf
      t_rec days_on days_off t_change rng).getD d []).length) :
    statusRank (((run_simulation n_days crew_size mainland_infection_rate r0
        t_inf t_rec days_on days_off t_change rng).getD d []).getD i
        default).infection_status ≤
      statusRank (((run_simulation n_days crew_size mainland_infection_rate r0
        t_inf t_rec days_on days_off t_change rng).getD d' []).getD i
        default).infection_status := by
  have hlen := run_simulation_length n_days crew_size mainland_infection_rate r0
    t_inf t_rec days_on days_off t_change rng
  have hdN : d < (n_days - 1).toNat + 1 := by omega
  have hdN' : d' < (n_days - 1).toNat + 1 := by omega
  rw [run_simulation_getD _ _ _ _ _ _ _ _ _ _ d hdN] at hi ⊢
  rw [run_simulation_getD _ _ _ _ _ _ _ _ _ _ d' hdN']
  have hi0 : i < (initialize_crew crew_size (schedule days_on days_off)
      t_change).length := by
    rwa [crewAt_length] at hi
  exact crewAt_statusRank_mono crew_size mainland_infection_rate r0 t_inf t_rec
    days_on days_off t_change rng d d' i hdd hi0

/-- Witness for C7 at a concrete parameter set, oracle, days and
position. -/
theorem C7_infection_status_monotone_witness :
    statusRank (((run_simulation 2 1 (fun _ => 0) 0 1 2 1 1 1
        (fun _ _ => 1)).getD 0 []).getD 0 default).infection_status ≤
      statusRank (((run_simulation 2 1 (fun _ => 0) 0 1 2 1 1 1
        (fun _ _ => 1)).getD 1 []).getD 0 default).infection_status :=
  C7_infection_status_monotone 2 1 (fun _ => 0) 0 1 2 1 1 1 (fun _ _ => 1)
    0 1 0 (by omega) (by decide) (by decide)

theorem initialize_crew_sco_nonneg (crew_size : ℤ) (sched : Schedule)
    (t_change : ℤ) (hON : 1 ≤ (sched Shift.ON).length)
    (hOFF : 1 ≤ (sched Shift.OFF).length) (ht : 1 ≤ t_change) (i : ℕ)
    (hi : i < (initialize_crew crew_size sched t_change).length) :
    0 ≤ ((initialize_crew crew_size sched t_change).getD i
      default).shift_changed_on := by
  unfold initialize_crew at hi ⊢
  rw [List.length_append] at hi
  by_cases hlt : i < (generate_shift Shift.ON crew_size sched t_change).length
  · rw [List.getD_append _ _ _ _ hlt,
      generate_shift_getD Shift.ON crew_size sched t_change hON ht i hlt]
    exact mul_nonneg (by omega) (Int.natCast_nonneg _)
  · push_neg at hlt
    rw [List.getD_append_right _ _ _ _ hlt]
    have hoff : i - (generate_shift Shift.ON crew_size sched t_change).length <
        (generate_shift Shift.OFF crew_size sched t_change).length := by omega
    rw [generate_shift_getD Shift.OFF crew_size sched t_change hOFF ht _ hoff]
    exact mul_nonneg (by omega) (Int.natCast_nonneg _)

/-- C8: in every run (with the documented preconditions
`days_on ≥ 1`, `days_off ≥ 1`, `t_change ≥ 1`), a worker's shift
differs between the day-`(d−1)` and day-`d` snapshots exactly when
`d − shift_changed_on` (read off the day-`(d−1)` snapshot) equals the
length of the worker's current schedule entry — the `≥` test in
`change_shift` only ever fires at equality — and on such a day the
worker's `shift_changed_on` is reset to `d`. -/
theorem C8_shift_changes_only_at_exact_length (n_days crew_size : ℤ)
    (mainland_infection_rate : ℤ → ℚ) (r0 : ℚ)
    (t_inf t_rec days_on days_off t_change : ℤ) (rng : ℤ → ℕ → ℚ)
    (hon : 1 ≤ days_on) (hoff : 1 ≤ days_off) (ht : 1 ≤ t_change)
    (d i : ℕ) (hd1 : 1 ≤ d)
    (hd : d < (run_simulation n_days crew_size mainland_infection_rate r0 t_inf
      t_rec days_on days_off t_change rng).length)
    (hi : i < ((run_simulation n_days crew_size mainland_infection_rate r0 t_inf
      t_rec days_on days_off t_change rng).getD (d - 1) []).length) :
    ((((run_simulation n_days crew_size mainland_infection_rate r0 t_inf t_rec
          days_on days_off t_change rng).getD d []).getD i default).shift ≠
        (((run_simulation n_days crew_size mainland_infection_rate r0 t_inf t_rec
          days_on days_off t_change rng).getD (d - 1) []).getD i default).shift ↔
      (d : ℤ) -
          (((run_simulation n_days crew_size mainland_infection_rate r0 t_inf
            t_rec days_on days_off t_change rng).getD (d - 1) []).getD i
            default).shift_changed_on =
        ((schedule days_on days_off)
          ((((run_simulation n_days crew_size mainland_infection_rate r0 t_inf
            t_rec days_on days_off t_change rng).getD (d - 1) []).getD i
            default).shift)).length) ∧
      ((d : ℤ) -
          (((run_simulation n_days crew_size mainland_infection_rate r0 t_inf
            t_rec days_on days_off t_change rng).getD (d - 1) []).getD i
            default).shift_changed_on =
        ((schedule days_on days_off)
          ((((run_simulation n_days crew_size mainland_infection_rate r0 t_inf
            t_rec days_on days_off t_change rng).getD (d - 1) []).getD i
            default).shift)).length →
        (((run_simulation n_days crew_size mainland_infection_rate r0 t_inf t_rec
          days_on days_off t_change rng).getD d []).getD i
          default).shift_changed_on = (d : ℤ)) := by
  have hpos : ∀ s, 1 ≤ ((schedule days_on days_off) s).length := by
    intro s
    cases s <;> simpa [schedule]
  have hlen := run_simulation_length n_days crew_size mainland_infection_rate r0
    t_inf t_rec days_on days_off t_change rng
  have hdN : d < (n_days - 1).toNat + 1 := by omega
  obtain ⟨e, rfl⟩ : ∃ e, d = e + 1 := ⟨d - 1, by omega⟩
  simp only [Nat.add_sub_cancel] at hi ⊢
  rw [run_simulation_getD _ _ _ _ _ _ _ _ _ _ (e + 1) hdN]
  rw [run_simulation_getD _ _ _ _ _ _ _ _ _ _ e (by omega)] at hi ⊢
  have hi0 : i < (initialize_crew crew_size (schedule days_on days_off)
      t_change).length := by
    rwa [crewAt_length] at hi
  have hpairE := crewAt_shift_pair crew_size mainland_infection_rate r0 t_inf
    t_rec days_on days_off t_change rng e i hi0
  have hpairE1 := crewAt_shift_pair crew_size mainland_infection_rate r0 t_inf
    t_rec days_on days_off t_change rng (e + 1) i hi0
  have hsco0 := initialize_crew_sco_nonneg crew_size (schedule days_on days_off)
    t_change (hpos Shift.ON) (hpos Shift.OFF) ht i hi0
  have h0 : -(((initialize_crew crew_size (schedule days_on days_off)
      t_change).getD i default).shift,
      ((initialize_crew crew_size (schedule days_on days_off) t_change).getD i
        default).shift_changed_on).2 <
      ((schedule days_on days_off)
        (((initialize_crew crew_size (schedule days_on days_off) t_change).getD i
          default).shift,
          ((initialize_crew crew_size (schedule days_on days_off) t_change).getD i
            default).shift_changed_on).1).length := by
    have := hpos ((initialize_crew crew_size (schedule days_on days_off)
      t_change).getD i default).shift
    dsimp only
    omega
  have hinv := shiftAt_inv (schedule days_on days_off) hpos _ h0 e
  rw [← hpairE] at hinv
  have hstep : shiftAt (schedule days_on days_off)
      (((initialize_crew crew_size (schedule days_on days_off) t_change).getD i
        default).shift,
        ((initialize_crew crew_size (schedule days_on days_off) t_change).getD i
          default).shift_changed_on) (e + 1) =
      shiftIter (schedule days_on days_off)
        (shiftAt (schedule days_on days_off)
          (((initialize_crew crew_size (schedule days_on days_off) t_change).getD i
            default).shift,
            ((initialize_crew crew_size (schedule days_on days_off) t_change).getD
              i default).shift_changed_on) e) ((e : ℤ) + 1) := rfl
  rw [hstep, ← hpairE] at hpairE1
  have hdc : (((e + 1 : ℕ)) : ℤ) = (e : ℤ) + 1 := by push_cast; ring
  rw [hdc]
  set we := (crewAt crew_size mainland_infection_rate r0 t_inf t_rec days_on
    days_off t_change rng e).getD i default with hwe
  set we1 := (crewAt crew_size mainland_infection_rate r0 t_inf t_rec days_on
    days_off t_change rng (e + 1)).getD i default with hwe1
  simp only at hinv
  unfold shiftIter at hpairE1
  dsimp only at hpairE1
  by_cases hcond : (e : ℤ) + 1 - we.shift_changed_on ≥
      ((schedule days_on days_off) we.shift).length
  · rw [if_pos hcond] at hpairE1
    have hs1 : we1.shift = ((schedule days_on days_off) we.shift).next_shift :=
      congrArg Prod.fst hpairE1
    have hs2 : we1.shift_changed_on = (e : ℤ) + 1 :=
      congrArg Prod.snd hpairE1
    constructor
    · constructor
      · intro _
        omega
      · intro _
        rw [hs1]
        exact schedule_next_ne days_on days_off we.shift
    · intro _
      exact hs2
  · rw [if_neg hcond] at hpairE1
    have hs1 : we1.shift = we.shift := congrArg Prod.fst hpairE1
    constructor
    · constructor
      · intro hne
        exact absurd hs1 hne
      · intro heq
        omega
    · intro heq
      omega

/-- Witness for C8 at a concrete run, day and position. -/
theorem C8_shift_changes_witness :
    ((((run_simulation 2 1 (fun _ => 0) 0 1 2 1 1 1 (fun _ _ => 1)).getD 1
          []).getD 0 default).shift ≠
        (((run_simulation 2 1 (fun _ => 0) 0 1 2 1 1 1 (fun _ _ => 1)).getD
          (1 - 1) []).getD 0 default).shift ↔
      ((1 : ℕ) : ℤ) -
          (((run_simulation 2 1 (fun _ => 0) 0 1 2 1 1 1 (fun _ _ => 1)).getD
            (1 - 1) []).getD 0 default).shift_changed_on =
        ((schedule 1 1)
          ((((run_simulation 2 1 (fun _ => 0) 0 1 2 1 1 1 (fun _ _ => 1)).getD
            (1 - 1) []).getD 0 default).shift)).length) ∧
      (((1 : ℕ) : ℤ) -
          (((run_simulation 2 1 (fun _ => 0) 0 1 2 1 1 1 (fun _ _ => 1)).getD
            (1 - 1) []).getD 0 default).shift_changed_on =
        ((schedule 1 1)
          ((((run_simulation 2 1 (fun _ => 0) 0 1 2 1 1 1 (fun _ _ => 1)).getD
            (1 - 1) []).getD 0 default).shift)).length →
        (((run_simulation 2 1 (fun _ => 0) 0 1 2 1 1 1 (fun _ _ => 1)).getD 1
          []).getD 0 default).shift_changed_on = ((1 : ℕ) : ℤ)) :=
  C8_shift_changes_only_at_exact_length 2 1 (fun _ => 0) 0 1 2 1 1 1
    (fun _ _ => 1) (by omega) (by omega) (by omega) 1 0 (by omega) (by decide)
    (by decide)

/-- C9 counterexample: all documented preconditions hold
(`n_days = 2 > 0`, `crew_size = 1 > 0`, `r0 = 0 ≥ 0`, `t_inf = 1 ≥ 0`,
`t_rec = 2 > t_inf`, `days_on = 1 > 0`, `days_off = 5 > 0`,
`0 < t_change = 1 ≤ min(days_on, days_off)`), yet on day 1 the single
ON-shift worker has rotated off and no OFF-shift worker is due back for
days, so the on-site count is zero (the source would raise
`ZeroDivisionError` in `_infection_rates`). -/
theorem C9_on_site_count_zero :
    count_shift ((run_simulation 2 1 (fun _ => 0) 0 1 2 1 5 1
      (fun _ _ => 1)).getD 1 []) Shift.ON = 0 := by decide

/-- C9 (amended): under the documented preconditions and the additional
hypothesis `days_on = days_off` (the configuration used throughout the
repository), the on-site count equals `crew_size` — in particular it is
nonzero — on every simulated day, so `_infection_rates` never divides
by zero: the initial ON and OFF cohorts pair up worker-by-worker with
identical staggering offsets and swap shifts simultaneously. -/
theorem C9_amended_on_site_count (n_days crew_size T t_change : ℤ)
    (mainland_infection_rate : ℤ → ℚ) (r0 : ℚ) (t_inf t_rec : ℤ)
    (rng : ℤ → ℕ → ℚ) (hcs : 1 ≤ crew_size) (hT : 1 ≤ T) (ht : 1 ≤ t_change)
    (htT : t_change ≤ T) (d : ℕ)
    (hd : d < (run_simulation n_days crew_size mainland_infection_rate r0 t_inf
      t_rec T T t_change rng).length) :
    count_shift ((run_simulation n_days crew_size mainland_infection_rate r0
        t_inf t_rec T T t_change rng).getD d []) Shift.ON = crew_size.toNat ∧
      0 < crew_size.toNat := by
  have hlen := run_simulation_length n_days crew_size mainland_infection_rate r0
    t_inf t_rec T T t_change rng
  have hdN : d < (n_days - 1).toNat + 1 := by omega
  rw [run_simulation_getD _ _ _ _ _ _ _ _ _ _ d hdN]
  refine ⟨?_, by omega⟩
  have hON : ((schedule T T) Shift.ON).length = T := schedule_length_eq T Shift.ON
  have hOFF : ((schedule T T) Shift.OFF).length = T := schedule_length_eq T Shift.OFF
  have hONpos : 1 ≤ ((schedule T T) Shift.ON).length := by omega
  have hOFFpos : 1 ≤ ((schedule T T) Shift.OFF).length := by omega
  have hgONlen : (generate_shift Shift.ON crew_size (schedule T T)
      t_change).length = crew_size.toNat := by
    rw [generate_shift_length _ _ _ _ hONpos ht, hON,
      Int.mul_fdiv_cancel _ (by omega : T ≠ 0)]
  have hgOFFlen : (generate_shift Shift.OFF crew_size (schedule T T)
      t_change).length = crew_size.toNat := by
    rw [generate_shift_length _ _ _ _ hOFFpos ht, hOFF, hON,
      Int.mul_fdiv_cancel _ (by omega : T ≠ 0)]
  have hclen : (initialize_crew crew_size (schedule T T) t_change).length =
      crew_size.toNat + crew_size.toNat := by
    unfold initialize_crew
    rw [List.length_append, hgONlen, hgOFFlen]
  have hcrewlen : (crewAt crew_size mainland_infection_rate r0 t_inf t_rec T T
      t_change rng d).length = crew_size.toNat + crew_size.toNat := by
    rw [crewAt_length]
    exact hclen
  apply count_shift_of_pair _ _ hcrewlen
  intro i hiN
  have hiA : i < (initialize_crew crew_size (schedule T T) t_change).length := by
    omega
  have hiB : crew_size.toNat + i <
      (initialize_crew crew_size (schedule T T) t_change).length := by omega
  have hpA := crewAt_shift_pair crew_size mainland_infection_rate r0 t_inf t_rec
    T T t_change rng d i hiA
  have hpB := crewAt_shift_pair crew_size mainland_infection_rate r0 t_inf t_rec
    T T t_change rng d (crew_size.toNat + i) hiB
  have hinitA : (initialize_crew crew_size (schedule T T) t_change).getD i
      default =
      Worker.mk Shift.ON
        (t_change * ((i % (pyRange 0 T t_change).length : ℕ) : ℤ))
        InfectionStatus.S 0 := by
    unfold initialize_crew
    rw [List.getD_append _ _ _ _ (by omega),
      generate_shift_getD Shift.ON crew_size (schedule T T) t_change hONpos ht i
        (by omega), hON]
  have hinitB : (initialize_crew crew_size (schedule T T) t_change).getD
      (crew_size.toNat + i) default =
      Worker.mk Shift.OFF
        (t_change * ((i % (pyRange 0 T t_change).length : ℕ) : ℤ))
        InfectionStatus.S 0 := by
    unfold initialize_crew
    rw [List.getD_append_right _ _ _ _ (by omega)]
    have heq : crew_size.toNat + i -
        (generate_shift Shift.ON crew_size (schedule T T) t_change).length = i := by
      omega
    rw [heq,
      generate_shift_getD Shift.OFF crew_size (schedule T T) t_change hOFFpos ht i
        (by omega), hOFF]
  rw [hinitA] at hpA
  rw [hinitB] at hpB
  dsimp only at hpA hpB
  have hONOFF := shiftAt_pair_opposite T
    (t_change * ((i % (pyRange 0 T t_change).length : ℕ) : ℤ)) d
  have hfstA : ((crewAt crew_size mainland_infection_rate r0 t_inf t_rec T T
      t_change rng d).getD i default).shift =
      (shiftAt (schedule T T)
        (Shift.ON, t_change * ((i % (pyRange 0 T t_change).length : ℕ) : ℤ)) d).1 :=
    congrArg Prod.fst hpA
  have hfstB : ((crewAt crew_size mainland_infection_rate r0 t_inf t_rec T T
      t_change rng d).getD (crew_size.toNat + i) default).shift =
      (shiftAt (schedule T T)
        (Shift.OFF, t_change * ((i % (pyRange 0 T t_change).length : ℕ) : ℤ)) d).1 :=
    congrArg Prod.fst hpB
  rw [hfstA, hfstB]
  have hne := hONOFF.1
  cases hA : (shiftAt (schedule T T)
      (Shift.ON, t_change * ((i % (pyRange 0 T t_change).length : ℕ) : ℤ)) d).1 <;>
    cases hB : (shiftAt (schedule T T)
      (Shift.OFF, t_change * ((i % (pyRange 0 T t_change).length : ℕ) : ℤ)) d).1 <;>
      simp_all

/-- Witness for C9 (amended) at a concrete run and day. -/
theorem C9_amended_witness :
    count_shift ((run_simulation 2 1 (fun _ => 0) 0 1 2 1 1 1
        (fun _ _ => 1)).getD 1 []) Shift.ON = (1 : ℤ).toNat ∧
      0 < (1 : ℤ).toNat :=
  C9_amended_on_site_count 2 1 1 1 (fun _ => 0) 0 1 2 (fun _ _ => 1)
    (by omega) (by omega) (by omega) (by omega) 1 (by decide)

theorem sum_map_indicator (thr : ℚ) (row : List ℚ) :
    (row.map (fun x => if thr < x then (1 : ℚ) else 0)).sum =
      ((row.countP (fun x => decide (thr < x))) : ℚ) := by
  induction row with
  | nil => simp
  | cons x xs ih =>
      rw [List.map_cons, List.sum_cons, List.countP_cons, ih]
      by_cases hx : thr < x <;> simp [hx] <;> ring

/-- C4: the entry of `power(d_null, d_alt, alpha)` for horizon row `i`
and reduction factor `j` equals the fraction of replicates `k` whose
observed difference `stat_control[i][k] − stat_intervention[i][j][k]`
strictly exceeds the `(1 − alpha)` quantile of the null differences
`stat_control[i] − permutation(stat_control[i])`; both the quantile and
the fraction are taken along the replicate axis only. -/
theorem C4_power_is_exceedance_fraction (pos_tests_control perm : List (List ℚ))
    (pos_tests_uv : List (List (List ℚ))) (alpha : ℚ)
    (halpha0 : 0 < alpha) (halpha1 : alpha < 1)
    (hperm : ∀ k : ℕ, k < pos_tests_control.length →
      (perm.getD k []).Perm (pos_tests_control.getD k []))
    (hplen : perm.length = pos_tests_control.length)
    (hulen : pos_tests_uv.length = pos_tests_control.length)
    (i j : ℕ) (hi : i < pos_tests_control.length)
    (hj : j < (pos_tests_uv.getD i []).length) :
    ((power (d_null pos_tests_control perm)
        (d_alt pos_tests_control pos_tests_uv) alpha).getD i []).getD j 0 =
      ((List.zipWith (fun x y => x - y) (pos_tests_control.getD i [])
          ((pos_tests_uv.getD i []).getD j [])).countP
        (fun x => decide (np_quantile
          (List.zipWith (fun x y => x - y) (pos_tests_control.getD i [])
            (perm.getD i [])) (1 - alpha) < x)) : ℚ) /
      ((List.zipWith (fun x y => x - y) (pos_tests_control.getD i [])
        ((pos_tests_uv.getD i []).getD j [])).length : ℚ) := by
  have hnulllen : (d_null pos_tests_control perm).length =
      pos_tests_control.length := by
    unfold d_null
    rw [List.length_zipWith, hplen]
    omega
  have haltlen : (d_alt pos_tests_control pos_tests_uv).length =
      pos_tests_control.length := by
    unfold d_alt
    rw [List.length_zipWith, hulen]
    omega
  have hthreshlen : ((d_null pos_tests_control perm).map
      (fun row => np_quantile row (1 - alpha))).length =
      pos_tests_control.length := by
    rw [List.length_map, hnulllen]
  have hpowlen : (power (d_null pos_tests_control perm)
      (d_alt pos_tests_control pos_tests_uv) alpha).length =
      pos_tests_control.length := by
    unfold power
    rw [List.length_zipWith, haltlen, hthreshlen]
    omega
  have hipow : i < (power (d_null pos_tests_control perm)
      (d_alt pos_tests_control pos_tests_uv) alpha).length := by omega
  have hialt : i < (d_alt pos_tests_control pos_tests_uv).length := by omega
  have hithresh : i < ((d_null pos_tests_control perm).map
      (fun row => np_quantile row (1 - alpha))).length := by omega
  have hinull : i < (d_null pos_tests_control perm).length := by omega
  have hperm' : i < perm.length := by omega
  have huv : i < pos_tests_uv.length := by omega
  -- row `i` of the power matrix
  rw [List.getD_eq_getElem _ _ hipow]
  unfold power
  rw [List.getElem_zipWith]
  -- threshold of row `i`
  have hth : ((d_null pos_tests_control perm).map
        (fun row => np_quantile row (1 - alpha))).get ⟨i, hithresh⟩ =
      np_quantile (List.zipWith (fun x y => x - y) (pos_tests_control.getD i [])
        (perm.getD i [])) (1 - alpha) := by
    rw [List.get_eq_getElem, List.getElem_map]
    congr 1
    unfold d_null
    rw [List.getElem_zipWith, List.getD_eq_getElem _ _ hi,
      List.getD_eq_getElem _ _ hperm']
  -- row `i` of d_alt
  have halt : (d_alt pos_tests_control pos_tests_uv).get ⟨i, hialt⟩ =
      (pos_tests_uv.getD i []).map
        (fun urow => List.zipWith (fun x y => x - y) (pos_tests_control.getD i [])
          urow) := by
    rw [List.get_eq_getElem]
    unfold d_alt
    rw [List.getElem_zipWith, List.getD_eq_getElem _ _ hi,
      List.getD_eq_getElem _ _ huv]
  rw [List.get_eq_getElem] at hth halt
  rw [hth, halt]
  -- entry `j` of the mapped row
  rw [List.map_map,
    List.getD_eq_getElem _ _ (by rw [List.length_map]; exact hj : j <
      ((pos_tests_uv.getD i []).map ((fun row => np_mean (row.map
        (fun x => if np_quantile (List.zipWith (fun x y => x - y)
          (pos_tests_control.getD i []) (perm.getD i [])) (1 - alpha) < x
          then (1 : ℚ) else 0))) ∘
        (fun urow => List.zipWith (fun x y => x - y)
          (pos_tests_control.getD i []) urow))).length),
    List.getElem_map]
  simp only [Function.comp]
  unfold np_mean
  rw [sum_map_indicator]
  have hjg : (pos_tests_uv.getD i []).get ⟨j, hj⟩ =
      (pos_tests_uv.getD i []).getD j [] := by
    rw [List.get_eq_getElem]
    exact (List.getD_eq_getElem _ _ hj).symm
  rw [List.get_eq_getElem] at hjg
  simp only [List.length_map, hjg]

/-- Witness for C4 on concrete arrays. -/
theorem C4_power_witness :
    ((power (d_null [[1, 2]] [[2, 1]]) (d_alt [[1, 2]] [[[0, 1]]])
        (1 / 2)).getD 0 []).getD 0 0 =
      ((List.zipWith (fun x y => x - y) (([[1, 2]] : List (List ℚ)).getD 0 [])
          ((([[[0, 1]]] : List (List (List ℚ))).getD 0 []).getD 0 [])).countP
        (fun x => decide (np_quantile
          (List.zipWith (fun x y => x - y) (([[1, 2]] : List (List ℚ)).getD 0 [])
            (([[2, 1]] : List (List ℚ)).getD 0 [])) (1 - 1 / 2) < x)) : ℚ) /
      ((List.zipWith (fun x y => x - y) (([[1, 2]] : List (List ℚ)).getD 0 [])
        ((([[[0, 1]]] : List (List (List ℚ))).getD 0 []).getD 0 [])).length : ℚ) :=
  C4_power_is_exceedance_fraction [[1, 2]] [[2, 1]] [[[0, 1]]] (1 / 2)
    (by norm_num) (by norm_num)
    (fun k hk => by
      have hk0 : k = 0 := by
        simp at hk
        omega
      subst hk0
      decide)
    (by decide) (by decide) 0 0 (by decide) (by decide)
